import Mathlib

/-!
Verification of the POI canonicalization / indexing engine of the
Google-Maps-Assistant-Tool repository.

The development shallowly embeds the relevant parts of
`prep_transport_poi.py` (text normalization, key derivation, the build
pipeline, the `POIIndex` query methods, `collect_inputs`) and of
`run_server.py` (the `StopsIndexer._ingest_p11_gml` GML ingester) as
executable Lean definitions, and proves or refutes the spec claims about
them.

Modelling conventions:
* Python strings are `List Char`.
* Python floats (coordinates, similarity scores) are `ℚ`.
* `unicodedata.normalize("NFKC", ·)` is modelled character-wise on the
  compatibility range the transit datasets use (full-width ASCII forms
  U+FF01–U+FF5E and the ideographic space U+3000); it is the identity on
  all other characters.
* `str.lower()` is modelled on the ASCII range (the only cased characters
  the key pipeline produces after NFKC).
* The filesystem and the heavy third-party backends (geopandas I/O,
  scipy's KD-tree, rapidfuzz's scorer) are parameters of the model; their
  documented input/output behaviour is embedded, not their internals.
-/

/-- Convert a Lean string literal to the `List Char` the model works on. -/
def chars (s : String) : List Char := s.data

/-- Characters matched by the whitespace class `\s` of `re` (and removed by
`str.strip()`): the ASCII whitespace characters plus the ideographic space
U+3000, which `normalize_text`'s regex `[\s　]+` names explicitly. -/
def isWsChar (c : Char) : Bool :=
  c = ' ' || c = '\t' || c = '\n' || c = '\r' || c = '\x0b' || c = '\x0c' || c = '　'

/-- `unicodedata.normalize("NFKC", ·)`, character-wise, on the compatibility
range the datasets use: full-width forms U+FF01–U+FF5E fold to ASCII
(U+0021–U+007E) and the ideographic space U+3000 folds to a plain space;
identity elsewhere. -/
def nfkcChar (c : Char) : Char :=
  if 0xFF01 ≤ c.toNat ∧ c.toNat ≤ 0xFF5E then Char.ofNat (c.toNat - 0xFEE0)
  else if c = '　' then ' '
  else c

/-- `str.strip()`: drop leading and trailing whitespace. -/
def stripWS (s : List Char) : List Char :=
  ((s.dropWhile isWsChar).reverse.dropWhile isWsChar).reverse

/-- Worker for `collapseWS`: the flag records whether the previous character
was part of a whitespace run (so the run is replaced by one space). -/
def collapseAux : Bool → List Char → List Char
  | _, [] => []
  | prevWs, c :: rest =>
    if isWsChar c then
      if prevWs then collapseAux true rest else ' ' :: collapseAux true rest
    else c :: collapseAux false rest

/-- `re.sub(r"[\s　]+", " ", s)`: replace each maximal whitespace run by a
single space. -/
def collapseWS (s : List Char) : List Char := collapseAux false s

/-- `_ZEN_BRACKETS` of `prep_transport_poi.py` (full-width bracket pairs
deleted by `normalize_text`). -/
def ZEN_BRACKETS : List Char :=
  chars "（）［］【】〈〉《》「」『』〔〕" ++ ['｛', '｝']

/-- The ASCII bracket/quote characters deleted by `normalize_text`
(`"()[]{}<>\"'"` in the source). -/
def ASCII_STRIP_CHARS : List Char :=
  ['(', ')', '[', ']', '\x7b', '\x7d', '<', '>', '\x22', '\x27']

/-- `normalize_text` (prep_transport_poi.py lines 60–67): NFKC-normalize,
strip, collapse whitespace runs to single spaces, delete full-width and
ASCII brackets/quotes. -/
def normalize_text (s : List Char) : List Char :=
  let s1 := s.map nfkcChar
  let s2 := collapseWS (stripWS s1)
  let s3 := s2.filter (fun c => !(ZEN_BRACKETS.contains c))
  s3.filter (fun c => !(ASCII_STRIP_CHARS.contains c))

/-- `SUFFIXES_FOR_KEY = ["駅", "停留所", "バス停"]`. -/
def SUFFIXES_FOR_KEY : List (List Char) := [chars "駅", chars "停留所", chars "バス停"]

/-- The suffix-stripping loop of `build_key`: the first suffix of
`SUFFIXES_FOR_KEY` that matches the end of the normalized name is removed
(the loop `break`s after the first hit). -/
def stripKeySuffix (base : List Char) : List Char :=
  match SUFFIXES_FOR_KEY.find? (fun suf => suf.isSuffixOf base) with
  | some suf => base.take (base.length - suf.length)
  | none => base

/-- `str.lower()` modelled on the ASCII range: after NFKC folding this is the
only cased range the key pipeline encounters. -/
def lowerChar (c : Char) : Char :=
  if 65 ≤ c.toNat ∧ c.toNat ≤ 90 then Char.ofNat (c.toNat + 32) else c

/-- `str.lower()` on a whole string. -/
def toLowerStr (s : List Char) : List Char := s.map lowerChar

/-- `build_key` (prep_transport_poi.py lines 69–75): normalize the display
name, strip the first matching transit suffix, lower-case. -/
def build_key (name : List Char) : List Char :=
  toLowerStr (stripKeySuffix (normalize_text name))

-- ======================================================================
-- The build pipeline (canonicalize / build, prep_transport_poi.py 182–332)
-- ======================================================================

/-- One input feature after `SchemaResolver` has located its columns: the
id/name/operator/line attribute values and the WGS84 point coordinates.
(`guess_name_column` etc. pick the columns; the model starts from the
already-extracted values.) -/
structure RawRow where
  rid : List Char
  rname : List Char
  roperator : List Char
  rline : List Char
  rlat : ℚ
  rlon : ℚ
deriving DecidableEq

/-- One stored record, the row schema produced by `canonicalize`
(prep_transport_poi.py lines 210–219). -/
structure Row where
  id : List Char
  kind : List Char
  name : List Char
  operator : List Char
  line : List Char
  lat : ℚ
  lon : ℚ
  name_key : List Char
deriving DecidableEq

/-- The dedup key of `canonicalize`'s
`drop_duplicates(subset=["kind", "name_key", "lat", "lon"])`. -/
def dedupKey (r : Row) : List Char × List Char × ℚ × ℚ :=
  (r.kind, r.name_key, r.lat, r.lon)

/-- Worker for `dropDuplicatesBy`: `seen` is the set of keys of the rows
already kept. -/
def dropDupAux {α β : Type} [DecidableEq β] (key : α → β) (seen : List β) :
    List α → List α
  | [] => []
  | a :: rest =>
    if seen.contains (key a) then dropDupAux key seen rest
    else a :: dropDupAux key (key a :: seen) rest

/-- `DataFrame.drop_duplicates` with `keep="first"` (the pandas default):
keep a row exactly when no earlier row has the same key. -/
def dropDuplicatesBy {α β : Type} [DecidableEq β] (key : α → β) (l : List α) : List α :=
  dropDupAux key [] l

/-- `canonicalize(gdf, kind)` (prep_transport_poi.py lines 182–221): build
the output schema, derive `name_key = build_key(name)`, and deduplicate on
`(kind, name_key, lat, lon)` within this one input file. -/
def canonicalize (kind : List Char) (rows : List RawRow) : List Row :=
  dropDuplicatesBy dedupKey
    (rows.map (fun rr =>
      { id := rr.rid, kind := kind, name := rr.rname, operator := rr.roperator,
        line := rr.rline, lat := rr.rlat, lon := rr.rlon,
        name_key := build_key rr.rname }))

/-- `setdefault(k, []).append(i)` on the insertion-ordered dict
`name_to_idxs` (prep_transport_poi.py lines 323–325). -/
def insertIdx (m : List (List Char × List Nat)) (k : List Char) (i : Nat) :
    List (List Char × List Nat) :=
  match m with
  | [] => [(k, [i])]
  | (k', v) :: rest =>
    if k' = k then (k', v ++ [i]) :: rest else (k', v) :: insertIdx rest k i

/-- The `for i, k in enumerate(all_df["name_key"])` loop building
`names_index.json`; `n` is the next enumeration index. -/
def mkNamesIndexAux (n : Nat) (keys : List (List Char))
    (m : List (List Char × List Nat)) : List (List Char × List Nat) :=
  match keys with
  | [] => m
  | k :: rest => mkNamesIndexAux (n + 1) rest (insertIdx m k n)

/-- The inverted name index persisted as `names_index.json`. -/
def mkNamesIndex (keys : List (List Char)) : List (List Char × List Nat) :=
  mkNamesIndexAux 0 keys []

/-- `self.names_index.get(key, [])`. -/
def lookupIdx (m : List (List Char × List Nat)) (k : List Char) : List Nat :=
  match m.lookup k with
  | some v => v
  | none => []

/-- The persisted store a `POIIndex` loads: the `poi.parquet` rows and the
`names_index.json` mapping. -/
structure Store where
  df : List Row
  names_index : List (List Char × List Nat)
deriving DecidableEq

/-- `build(cfg)` (prep_transport_poi.py lines 290–327): canonicalize every
N05 input frame as kind `"station"` and every P11 frame as kind
`"bus_stop"`, concatenate the frames in processing order, and build the
name index over the concatenated `name_key` column.  Each element of
`n05`/`p11` is the record stream of one resolved input file.  (The
`SystemExit` on a completely empty input list and the parquet writes are
outside the model.) -/
def buildStore (n05 p11 : List (List RawRow)) : Store :=
  let all := (n05.map (canonicalize (chars "station"))).flatten ++
             (p11.map (canonicalize (chars "bus_stop"))).flatten
  { df := all, names_index := mkNamesIndex (all.map Row.name_key) }

-- ======================================================================
-- The POIIndex query engine (prep_transport_poi.py 225–280)
-- ======================================================================

/-- Python's `if kind:` guard on the optional kind filter: it fires only
when `kind` is neither `None` nor the empty string. -/
def applyKindFilter (kind : Option (List Char)) (res : List Row) : List Row :=
  match kind with
  | some kd => if kd.isEmpty then res else res.filter (fun r => r.kind == kd)
  | none => res

/-- `df.iloc[idxs]`: select the rows at the given positions, in order.  The
positions handed to it by the queries always come from the name index and
are therefore in range; out-of-range positions (on which pandas would
raise) select nothing. -/
def ilocRows (df : List Row) (idxs : List Nat) : List Row :=
  idxs.filterMap (fun i => df.get? i)

/-- `POIIndex.find_exact` (lines 239–245): look the normalized key up in the
name index and take those rows. -/
def find_exact (st : Store) (name : List Char) (kind : Option (List Char)) : List Row :=
  let key := build_key name
  let idxs := lookupIdx st.names_index key
  applyKindFilter kind (ilocRows st.df idxs)

/-- Literal substring containment: does `pat` occur contiguously in `hay`?
This models `Series.str.contains(q, na=False)` in `find_substring`; pandas
reads the pattern as a regular expression, which coincides with literal
containment whenever the pattern contains no regex metacharacter. -/
def containsSub (hay pat : List Char) : Bool :=
  match hay with
  | [] => pat.isEmpty
  | _ :: rest => pat.isPrefixOf hay || containsSub rest pat

/-- `POIIndex.find_substring` (lines 247–252): lower-cased normalized query,
scan the `_key` column (recomputed as `build_key` of the stored name). -/
def find_substring (st : Store) (query : List Char) (kind : Option (List Char)) : List Row :=
  let q := toLowerStr (normalize_text query)
  applyKindFilter kind (st.df.filter (fun r => containsSub (build_key r.name) q))

/-- rapidfuzz `process.extract(key, choices, scorer=fuzz.WRatio,
limit=limit)`: the `limit` best-scoring choices, in non-increasing score
order.  `scorer` (the 0–100 weighted similarity `fuzz.WRatio`) is a
parameter of the model — the embedded code is generic in it. -/
def processExtract (scorer : List Char → List Char → ℚ) (key : List Char)
    (choices : List (List Char)) (limit : Nat) : List (List Char × ℚ) :=
  ((choices.map (fun c => (c, scorer key c))).insertionSort
    (fun a b => b.2 ≤ a.2)).take limit

/-- `list(self.names_index.keys())`. -/
def indexKeys (st : Store) : List (List Char) := st.names_index.map Prod.fst

/-- The keys `find_fuzzy` keeps: extracted matches scoring at least 70. -/
def fuzzyKeys (scorer : List Char → List Char → ℚ) (st : Store) (query : List Char)
    (limit : Nat) : List (List Char) :=
  ((processExtract scorer (build_key query) (indexKeys st) limit).filter
    (fun p => decide (70 ≤ p.2))).map Prod.fst

/-- `POIIndex.find_fuzzy` (lines 254–267): extract up to `limit` index keys,
keep those scoring ≥ 70, and return every indexed row of every kept key. -/
def find_fuzzy (scorer : List Char → List Char → ℚ) (st : Store) (query : List Char)
    (limit : Nat) (kind : Option (List Char)) : List Row :=
  let idxs := (fuzzyKeys scorer st query limit).flatMap
    (fun k => lookupIdx st.names_index k)
  applyKindFilter kind (ilocRows st.df idxs)

/-- Squared planar coordinate distance between two (lat, lon) pairs; the
KD-tree's reported distance is its square root. -/
def sqDist (lat1 lon1 lat2 lon2 : ℚ) : ℚ :=
  (lat1 - lat2) ^ 2 + (lon1 - lon2) ^ 2

/-- `POIIndex.nearest` (lines 269–280): `cKDTree.query` returns the `k`
nearest stored points in ascending planar distance order; modelled by
sorting the rows on squared planar distance (the same order as distance)
and taking `k`.  The `approx_m` column it adds is the reported distance
scaled by 111 000 — see the claim about it below. -/
def nearest (st : Store) (lat lon : ℚ) (k : Nat) (kind : Option (List Char)) : List Row :=
  let scored := st.df.map (fun r => (r, sqDist r.lat r.lon lat lon))
  let sorted := scored.insertionSort (fun a b => a.2 ≤ b.2)
  applyKindFilter kind ((sorted.take k).map Prod.fst)

-- ======================================================================
-- Error taxonomy and the guarded entry points
-- ======================================================================

/-- Which optional backend a backend-unavailable error names. -/
inductive MissingBackend where
  | rapidfuzz
  | scipy
deriving DecidableEq

/-- The user-visible errors of the engine (each a distinct `raise` in the
source, with its message). -/
inductive PoiError where
  | backendUnavailable (which : MissingBackend) (message : List Char)
  | unsupportedFormat (message : List Char)
  | missingInput (message : List Char)
deriving DecidableEq

/-- The error `find_fuzzy` raises when `import rapidfuzz` fails (line 258). -/
def rapidfuzzError : PoiError :=
  .backendUnavailable .rapidfuzz (chars "rapidfuzz が必要です: pip install rapidfuzz")

/-- The error `nearest` raises when `self._kdtree is None` (line 271). -/
def scipyError : PoiError :=
  .backendUnavailable .scipy (chars "最近傍検索には scipy が必要です: pip install scipy")

/-- `find_fuzzy` including its backend guard: the `from rapidfuzz import …`
at the top of the method either succeeds (`rapidfuzzAvailable = true`) or
raises before any matching happens. -/
def find_fuzzy_checked (rapidfuzzAvailable : Bool)
    (scorer : List Char → List Char → ℚ) (st : Store) (query : List Char)
    (limit : Nat) (kind : Option (List Char)) : Except PoiError (List Row) :=
  if rapidfuzzAvailable then .ok (find_fuzzy scorer st query limit kind)
  else .error rapidfuzzError

/-- `nearest` including its backend guard: `self._kdtree` is `None` exactly
when the scipy import failed in `__init__` (lines 233–237), and the method
raises before any lookup happens. -/
def nearest_checked (kdtreeBuilt : Bool) (st : Store) (lat lon : ℚ) (k : Nat)
    (kind : Option (List Char)) : Except PoiError (List Row) :=
  if kdtreeBuilt then .ok (nearest st lat lon k kind)
  else .error scipyError

-- ======================================================================
-- collect_inputs (prep_transport_poi.py 110–158)
-- ======================================================================

/-- `SUPPORTED_VECTORS = (".gml", ".gpkg", ".geojson", ".json", ".shp")`. -/
def SUPPORTED_VECTORS : List (List Char) :=
  [chars ".gml", chars ".gpkg", chars ".geojson", chars ".json", chars ".shp"]

/-- `any(ch in spec for ch in "*?")`: the glob-pattern test. -/
def hasGlobChar (spec : List Char) : Bool :=
  spec.any (fun c => c == '*' || c == '?')

/-- `Path.suffix` (lowercasing is applied separately): the extension of the
final path component, empty when the component has no dot, only a leading
dot, or only a trailing dot. -/
def pathSuffix (p : List Char) : List Char :=
  let name := (p.reverse.takeWhile (fun c => !(c == '/' || c == '\\'))).reverse
  let rext := name.reverse.takeWhile (fun c => !(c == '.'))
  if !rext.isEmpty && rext.length + 1 < name.length then '.' :: rext.reverse else []

/-- Does a path carry one of the supported vector extensions
(`suffix.lower() in SUPPORTED_VECTORS`)? -/
def hasSupportedSuffix (p : List Char) : Bool :=
  SUPPORTED_VECTORS.contains (toLowerStr (pathSuffix p))

/-- The filesystem as `collect_inputs` observes it: `globMatches spec` is
`Path(".").glob(spec)` (the existing entries matching the pattern),
`dirFiles d` is the recursive listing `d.rglob("*")`, and `zipGmls z` is
the list of `.gml` members `extract_gml_from_zip` pulls out of the archive
`z`. -/
structure FileSys where
  isFile : List Char → Bool
  isDir : List Char → Bool
  globMatches : List Char → List (List Char)
  dirFiles : List Char → List (List Char)
  zipGmls : List Char → List (List Char)

/-- `collect_inputs(spec, scratch_dir)` (lines 123–158): glob patterns are
expanded and filtered; a `.zip` file is extracted; a supported single file
is returned as-is; an unsupported single file raises; a directory is
recursed; anything else raises the missing-input `SystemExit`.  (Path
resolution to absolute paths is identity in the model.) -/
def collect_inputs (fs : FileSys) (spec : List Char) :
    Except PoiError (List (List Char)) :=
  if hasGlobChar spec then
    .ok ((fs.globMatches spec).filter (fun m => fs.isFile m && hasSupportedSuffix m))
  else if fs.isFile spec then
    if toLowerStr (pathSuffix spec) = chars ".zip" then .ok (fs.zipGmls spec)
    else if hasSupportedSuffix spec then .ok [spec]
    else .error (.unsupportedFormat (chars "未対応の拡張子です"))
  else if fs.isDir spec then
    .ok ((fs.dirFiles spec).filter (fun m => fs.isFile m && hasSupportedSuffix m))
  else .error (.missingInput (chars "指定パスが見つかりません"))

-- ======================================================================
-- The runtime GML ingester (run_server.py, StopsIndexer._ingest_p11_gml)
-- ======================================================================

/-- An `xml.etree.ElementTree` element: its (namespace-expanded) tag, its
attribute dict, its text, and its direct children. -/
inductive XmlNode where
  | elem (tag : List Char) (attrs : List (List Char × List Char))
         (text : Option (List Char)) (children : List XmlNode)

/-- The tag of a node. -/
def XmlNode.tag : XmlNode → List Char
  | .elem t _ _ _ => t

/-- The attribute dict of a node. -/
def XmlNode.attrs : XmlNode → List (List Char × List Char)
  | .elem _ a _ _ => a

/-- The text of a node (`ch.text`, `None` when absent). -/
def XmlNode.text : XmlNode → Option (List Char)
  | .elem _ _ x _ => x

/-- The direct children of a node (`for ch in node`). -/
def XmlNode.children : XmlNode → List XmlNode
  | .elem _ _ _ cs => cs

mutual

/-- `node.iter()`: the node and all its descendants in document order. -/
def XmlNode.iter : XmlNode → List XmlNode
  | .elem t a x cs => .elem t a x cs :: itersAll cs

/-- `iter` concatenated over a list of sibling subtrees. -/
def itersAll : List XmlNode → List XmlNode
  | [] => []
  | c :: cs => c.iter ++ itersAll cs

end

/-- `_localname` (run_server.py lines 70–72): the tag after the last
closing brace of the namespace part, the whole tag when there is none. -/
def localname (tag : List Char) : List Char :=
  (tag.reverse.takeWhile (fun c => !(c == '\x7d'))).reverse

/-- `element.attrib.get(key)`. -/
def attrGet (attrs : List (List Char × List Char)) (key : List Char) :
    Option (List Char) :=
  attrs.lookup key

/-- Python's `a or b` on optional strings: `b` when `a` is `None` or empty. -/
def orFalsy (a b : Option (List Char)) : Option (List Char) :=
  match a with
  | some s => if s.isEmpty then b else some s
  | none => b

/-- `str.split()` with no separator: split on whitespace runs, dropping
empty fields. -/
def splitWsAux : List Char → List Char → List (List Char)
  | acc, [] => if acc.isEmpty then [] else [acc.reverse]
  | acc, c :: rest =>
    if isWsChar c then
      if acc.isEmpty then splitWsAux [] rest else acc.reverse :: splitWsAux [] rest
    else splitWsAux (c :: acc) rest

/-- `pos_text.split()`. -/
def splitWs (s : List Char) : List (List Char) := splitWsAux [] s

/-- A decimal digit's value. -/
def digitVal (c : Char) : Option Nat :=
  if '0' ≤ c ∧ c ≤ '9' then some (c.toNat - 48) else none

/-- Parse an unsigned run of digits as a natural number (`none` when empty
or a non-digit appears). -/
def parseDigits : List Char → Option Nat
  | [] => none
  | ds => ds.foldl (fun acc c => match acc, digitVal c with
      | some n, some d => some (n * 10 + d)
      | _, _ => none) (some 0)

/-- `_num` (run_server.py lines 74–82) on the plain decimal literals the GML
data carries: optional sign, integer digits, optional fractional digits;
`None` on anything else.  (The float-literal forms the datasets never use —
exponents, `inf`, `nan` — are outside the model, as is `_num`'s rejection of
infinities.) -/
def parseNum (s : List Char) : Option ℚ :=
  let (neg, body) :=
    match s with
    | '-' :: rest => (true, rest)
    | '+' :: rest => (false, rest)
    | _ => (false, s)
  let intPart := body.takeWhile (fun c => !(c == '.'))
  let rest := body.drop intPart.length
  let mag : Option ℚ :=
    match rest with
    | [] =>
      match parseDigits intPart with
      | some n => some (mkRat n 1)
      | none => none
    | '.' :: fracDigits =>
      if fracDigits.isEmpty then
        match parseDigits intPart with
        | some n => some (mkRat n 1)
        | none => none
      else
        match parseDigits intPart, parseDigits fracDigits with
        | some n, some f =>
          some (mkRat (n * 10 ^ fracDigits.length + f) (10 ^ fracDigits.length))
        | _, _ => none
    | _ => none
  match mag with
  | some m => some (if neg then -m else m)
  | none => none

/-- The xlink attribute keys probed for `ksj:loc` (run_server.py line 299);
`\x7b`/`\x7d` are the literal braces of the expanded namespace. -/
def XLINK_HREF : List Char := chars "\x7bhttp://www.w3.org/1999/xlink\x7dhref"

/-- The `gml:id` attribute keys probed for `gml:Point` (lines 265–267). -/
def GML32_ID : List Char := chars "\x7bhttp://www.opengis.net/gml/3.2\x7did"

/-- `"lat lon"` → `(lon, lat)` as stored in `id2coord` (lines 277–283):
exactly two whitespace-separated fields are destructured, each parsed with
`_num`; any other shape leaves both coordinates `None`. -/
def posToCoord (posText : List Char) : Option ℚ × Option ℚ :=
  match splitWs posText with
  | [latS, lonS] => (parseNum lonS, parseNum latS)
  | _ => (none, none)

/-- Pass 1, one node (lines 262–283): a `Point` node with a usable id and a
non-empty `pos` child text contributes an `id2coord` entry. -/
def pointEntry (n : XmlNode) : Option (List Char × (Option ℚ × Option ℚ)) :=
  if localname n.tag = chars "Point" then
    match orFalsy (orFalsy (attrGet n.attrs GML32_ID) (attrGet n.attrs (chars "gml:id")))
        (attrGet n.attrs (chars "id")) with
    | none => none
    | some gid =>
      if gid.isEmpty then none
      else
        match n.children.find? (fun ch =>
            localname ch.tag == chars "pos" && !(stripWS (ch.text.getD [])).isEmpty) with
        | none => none
        | some ch => some (gid, posToCoord (stripWS (ch.text.getD [])))
  else none

/-- `id2coord[gid] = (lon, lat)`: Python dict assignment (overwrite in
place, append when new). -/
def dictInsert (m : List (List Char × (Option ℚ × Option ℚ))) (k : List Char)
    (v : Option ℚ × Option ℚ) : List (List Char × (Option ℚ × Option ℚ)) :=
  if m.any (fun p => p.1 == k) then
    m.map (fun p => if p.1 = k then (k, v) else p)
  else m ++ [(k, v)]

/-- Pass 1 over the whole document: fold the `Point` entries into the
`id2coord` dict in document order. -/
def collectPoints (nodes : List XmlNode) : List (List Char × (Option ℚ × Option ℚ)) :=
  nodes.foldl (fun m n =>
    match pointEntry n with
    | some (gid, c) => dictInsert m gid c
    | none => m) []

/-- The scan of a `BusStop`'s direct children (lines 290–301): each later
`bsn`/`boc` child with non-empty text overwrites the earlier one, and each
`loc` child with an xlink `href` starting with `#` overwrites the reference
id. Result: (name, operator, ref_id). -/
def scanStopChildren (cs : List XmlNode) :
    Option (List Char) × Option (List Char) × Option (List Char) :=
  cs.foldl (fun acc ch =>
    let ln := localname ch.tag
    if ln = chars "bsn" ∧ ¬(stripWS (ch.text.getD [])).isEmpty then
      (some (stripWS (ch.text.getD [])), acc.2.1, acc.2.2)
    else if ln = chars "boc" ∧ ¬(stripWS (ch.text.getD [])).isEmpty then
      (acc.1, some (stripWS (ch.text.getD [])), acc.2.2)
    else if ln = chars "loc" then
      match orFalsy (attrGet ch.attrs XLINK_HREF) (attrGet ch.attrs (chars "href")) with
      | some ('#' :: refId) => (acc.1, acc.2.1, some refId)
      | _ => acc
    else acc) (none, none, none)

/-- `PREF_LIST` (run_server.py lines 36–46). -/
def PREF_LIST : List (List Char) :=
  [chars "北海道", chars "青森県", chars "岩手県", chars "宮城県", chars "秋田県",
   chars "山形県", chars "福島県", chars "茨城県", chars "栃木県", chars "群馬県",
   chars "埼玉県", chars "千葉県", chars "東京都", chars "神奈川県", chars "新潟県",
   chars "富山県", chars "石川県", chars "福井県", chars "山梨県", chars "長野県",
   chars "岐阜県", chars "静岡県", chars "愛知県", chars "三重県", chars "滋賀県",
   chars "京都府", chars "大阪府", chars "兵庫県", chars "奈良県", chars "和歌山県",
   chars "鳥取県", chars "島根県", chars "岡山県", chars "広島県", chars "山口県",
   chars "徳島県", chars "香川県", chars "愛媛県", chars "高知県", chars "福岡県",
   chars "佐賀県", chars "長崎県", chars "熊本県", chars "大分県", chars "宮崎県",
   chars "鹿児島県", chars "沖縄県"]

/-- The per-value check of `any_contains_pref` (lines 58–68): the first
prefecture occurring in `v` as a substring, else `v` itself when it is a
prefecture name. -/
def prefOf (v : List Char) : Option (List Char) :=
  match PREF_LIST.find? (fun p => containsSub v p) with
  | some p => some p
  | none => if PREF_LIST.contains v then some v else none

/-- `any_contains_pref(values)`: the first hit over the values, else `""`. -/
def any_contains_pref (values : List (List Char)) : List Char :=
  (values.findSome? prefOf).getD []

/-- One normalized bus-stop record of the runtime indexer.  (The constant
`line`/`source` columns and the `relpath`/`zip` provenance strings carry no
per-feature information and are outside the model.) -/
structure StopItem where
  sname : List Char
  spref : List Char
  slon : Option ℚ
  slat : Option ℚ
deriving DecidableEq

/-- Pass 2, one node (lines 286–318): a `BusStop` node yields a `StopItem`
when its child scan found a non-empty name; its coordinates come from
`id2coord` when the `loc` reference resolves, and stay `None` otherwise. -/
def busStopItem (id2coord : List (List Char × (Option ℚ × Option ℚ)))
    (n : XmlNode) : Option StopItem :=
  if localname n.tag = chars "BusStop" then
    match scanStopChildren n.children with
    | (some name, oper, refId) =>
      let coord :=
        match refId with
        | some rid =>
          if rid.isEmpty then (none, none)
          else (id2coord.lookup rid).getD (none, none)
        | none => (none, none)
      let nearVals := n.iter.filterMap (fun ch =>
        let t := stripWS (ch.text.getD [])
        if t.isEmpty then none else some t)
      some { sname := name,
             spref := any_contains_pref (nearVals ++ [oper.getD []]),
             slon := coord.1, slat := coord.2 }
    | (none, _, _) => none
  else none

/-- `_ingest_p11_gml` on a parsed document (lines 260–318): collect every
`Point`'s coordinates first, then emit one record per named `BusStop`, in
document order.  (File/ZIP reading and the `ET.ParseError` early return are
upstream of the parsed tree and outside the model.) -/
def ingest_p11 (root : XmlNode) : List StopItem :=
  let nodes := root.iter
  let id2coord := collectPoints nodes
  nodes.filterMap (busStopItem id2coord)

-- Document shapes used to state the GeometryLinker claims --------------

/-- A document root with the given top-level elements. -/
def p11Doc (cs : List XmlNode) : XmlNode := .elem (chars "root") [] none cs

/-- A `ksj:bsn` (stop name) child. -/
def p11Bsn (name : List Char) : XmlNode := .elem (chars "bsn") [] (some name) []

/-- A `ksj:loc` child referencing the geometry `#gid` via `xlink:href`. -/
def p11Loc (gid : List Char) : XmlNode :=
  .elem (chars "loc") [(XLINK_HREF, '#' :: gid)] none []

/-- A named `ksj:BusStop` feature referencing the geometry `#gid`. -/
def p11Stop (name gid : List Char) : XmlNode :=
  .elem (chars "BusStop") [] none [p11Bsn name, p11Loc gid]

/-- A `ksj:BusStop` feature with no name child at all. -/
def p11StopNoName (gid : List Char) : XmlNode :=
  .elem (chars "BusStop") [] none [p11Loc gid]

/-- A `gml:pos` child carrying the coordinate text. -/
def p11Pos (pos : List Char) : XmlNode := .elem (chars "pos") [] (some pos) []

/-- A `gml:Point` geometry with identifier `gid` and position text `pos`. -/
def p11Point (gid pos : List Char) : XmlNode :=
  .elem (chars "Point") [(GML32_ID, gid)] none [p11Pos pos]


/-- The metacharacters the `re` engine treats specially.  `find_substring`
hands its needle to `Series.str.contains`, which reads it as a regular
expression; on needles free of these characters that is literal substring
containment (the reading `containsSub` embeds). -/
def REGEX_META : List Char :=
  ['.', '^', '$', '*', '+', '?', '\x7b', '\x7d', '[', ']', '\\', '|', '(', ')']

/-- Proof-side characterization of one bucket of the name index: the
positions (counting from `n`) at which the key column `keys` carries `k`. -/
def bucketFrom (n : Nat) (keys : List (List Char)) (k : List Char) : List Nat :=
  match keys with
  | [] => []
  | k0 :: rest => (if k0 = k then [n] else []) ++ bucketFrom (n + 1) rest k

-- ======================================================================
-- Lemmas
-- ======================================================================

theorem lowerChar_lowerChar (c : Char) : lowerChar (lowerChar c) = lowerChar c := by
  by_cases h : 65 ≤ c.toNat ∧ c.toNat ≤ 90
  · have hv : (c.toNat + 32).isValidChar := by
      constructor
      omega
    have htn : (Char.ofNat (c.toNat + 32)).toNat = c.toNat + 32 := by
      rw [Char.ofNat, dif_pos hv]
      rfl
    simp only [lowerChar, if_pos h]
    rw [if_neg]
    rw [htn]
    omega
  · simp only [lowerChar, if_neg h]

theorem toLowerStr_toLowerStr (s : List Char) : toLowerStr (toLowerStr s) = toLowerStr s := by
  unfold toLowerStr
  induction s with
  | nil => rfl
  | cons c rest ih => simp [List.map_cons, lowerChar_lowerChar, ih]

theorem containsSub_self (l : List Char) : containsSub l l = true := by
  cases l with
  | nil => rfl
  | cons c rest =>
    simp only [containsSub, Bool.or_eq_true]
    left
    simp [List.isPrefixOf_iff_prefix]

theorem mem_dropDupAux {α β : Type} [DecidableEq β] {key : α → β} {b : α} :
    ∀ {l : List α} {seen : List β}, b ∈ dropDupAux key seen l → b ∈ l := by
  intro l
  induction l with
  | nil => intro seen h; simp [dropDupAux] at h
  | cons a rest ih =>
    intro seen h
    rw [dropDupAux] at h
    split at h
    · exact List.mem_cons_of_mem _ (ih h)
    · rcases List.mem_cons.mp h with h | h
      · exact h ▸ List.mem_cons_self _ _
      · exact List.mem_cons_of_mem _ (ih h)

theorem dropDupAux_key_not_seen {α β : Type} [DecidableEq β] {key : α → β} :
    ∀ {l : List α} {seen : List β} {b : α}, b ∈ dropDupAux key seen l → key b ∉ seen := by
  intro l
  induction l with
  | nil => intro seen b h; simp [dropDupAux] at h
  | cons a rest ih =>
    intro seen b h
    rw [dropDupAux] at h
    split at h
    · exact ih h
    · next hc =>
      rcases List.mem_cons.mp h with rfl | h
      · intro hmem
        exact hc (by simpa using hmem)
      · intro hmem
        exact (ih h) (List.mem_cons_of_mem _ hmem)

theorem pairwise_dropDupAux {α β : Type} [DecidableEq β] (key : α → β) :
    ∀ (l : List α) (seen : List β),
      (dropDupAux key seen l).Pairwise (fun a b => key a ≠ key b) := by
  intro l
  induction l with
  | nil => intro seen; simp [dropDupAux]
  | cons a rest ih =>
    intro seen
    rw [dropDupAux]
    split
    · exact ih seen
    · refine List.pairwise_cons.mpr ⟨?_, ih _⟩
      intro b hb heq
      exact (dropDupAux_key_not_seen hb) (heq ▸ List.mem_cons_self _ _)

theorem pairwise_dropDuplicatesBy {α β : Type} [DecidableEq β] (key : α → β)
    (l : List α) : (dropDuplicatesBy key l).Pairwise (fun a b => key a ≠ key b) :=
  pairwise_dropDupAux key l []

theorem lookupIdx_insertIdx (m : List (List Char × List Nat)) (k k' : List Char) (i : Nat) :
    lookupIdx (insertIdx m k i) k' =
      if k' = k then lookupIdx m k' ++ [i] else lookupIdx m k' := by
  induction m with
  | nil =>
    by_cases h : k' = k
    · subst h
      simp [insertIdx, lookupIdx, List.lookup_cons]
    · have hbe : (k' == k) = false := beq_eq_false_iff_ne.mpr h
      simp [insertIdx, lookupIdx, List.lookup_cons, hbe, h]
  | cons p rest ih =>
    obtain ⟨k0, v⟩ := p
    by_cases h0 : k0 = k
    · subst h0
      by_cases h : k' = k0
      · subst h
        simp [insertIdx, lookupIdx, List.lookup_cons]
      · have hbe : (k' == k0) = false := beq_eq_false_iff_ne.mpr h
        simp [insertIdx, lookupIdx, List.lookup_cons, hbe, h]
    · have hne : ¬(k0 = k) := h0
      by_cases h : k' = k0
      · subst h
        have hne2 : ¬(k' = k) := fun hh => h0 hh
        simp [insertIdx, lookupIdx, List.lookup_cons, hne, hne2]
      · have hbe : (k' == k0) = false := beq_eq_false_iff_ne.mpr h
        simp only [insertIdx, if_neg hne, List.lookup_cons, lookupIdx, hbe] at ih ⊢
        exact ih

theorem lookupIdx_mkNamesIndexAux (keys : List (List Char)) :
    ∀ (n : Nat) (m : List (List Char × List Nat)) (k : List Char),
      lookupIdx (mkNamesIndexAux n keys m) k = lookupIdx m k ++ bucketFrom n keys k := by
  induction keys with
  | nil => intro n m k; simp [mkNamesIndexAux, bucketFrom]
  | cons k0 rest ih =>
    intro n m k
    rw [mkNamesIndexAux, ih, lookupIdx_insertIdx, bucketFrom]
    by_cases h : k = k0
    · subst h
      simp
    · have h2 : ¬(k0 = k) := fun hh => h hh.symm
      simp [h, h2]

theorem lookupIdx_mkNamesIndex (keys : List (List Char)) (k : List Char) :
    lookupIdx (mkNamesIndex keys) k = bucketFrom 0 keys k := by
  rw [mkNamesIndex, lookupIdx_mkNamesIndexAux]
  simp [lookupIdx]

theorem ilocRows_bucketFrom (k : List Char) :
    ∀ (df pre : List Row),
      ilocRows (pre ++ df) (bucketFrom pre.length (df.map Row.name_key) k) =
        df.filter (fun r => r.name_key == k) := by
  intro df
  induction df with
  | nil => intro pre; simp [bucketFrom, ilocRows]
  | cons r rest ih =>
    intro pre
    have hget : (pre ++ r :: rest).get? pre.length = some r := by
      rw [List.get?_eq_getElem?, List.getElem?_append_right (le_refl _)]
      simp
    have happ : pre ++ r :: rest = (pre ++ [r]) ++ rest := by simp
    have ihr := ih (pre ++ [r])
    simp only [ilocRows] at ihr ⊢
    simp only [List.map_cons, bucketFrom, List.filterMap_append, List.filter_cons]
    by_cases h : r.name_key = k
    · have hbe : (r.name_key == k) = true := beq_iff_eq.mpr h
      rw [hbe]
      simp only [if_pos h, if_true, List.filterMap_cons, hget, List.filterMap_nil]
      rw [show pre.length + 1 = (pre ++ [r]).length by simp, happ, ihr]
      rfl
    · have hbe : (r.name_key == k) = false := beq_eq_false_iff_ne.mpr h
      rw [hbe]
      simp only [if_neg h, Bool.false_eq_true, if_false, List.filterMap_nil, List.nil_append]
      rw [show pre.length + 1 = (pre ++ [r]).length by simp, happ, ihr]

theorem ilocRows_lookup_mkNamesIndex (df : List Row) (k : List Char) :
    ilocRows df (lookupIdx (mkNamesIndex (df.map Row.name_key)) k) =
      df.filter (fun r => r.name_key == k) := by
  rw [lookupIdx_mkNamesIndex]
  have := ilocRows_bucketFrom k df []
  simpa using this

theorem name_key_canonicalize {kind : List Char} {rows : List RawRow} {r : Row}
    (h : r ∈ canonicalize kind rows) : r.name_key = build_key r.name := by
  have := mem_dropDupAux h
  rcases List.mem_map.mp this with ⟨rr, _, rfl⟩
  rfl

theorem name_key_buildStore {n05 p11 : List (List RawRow)} {r : Row}
    (h : r ∈ (buildStore n05 p11).df) : r.name_key = build_key r.name := by
  simp only [buildStore, List.mem_append, List.mem_flatten, List.mem_map] at h
  rcases h with ⟨fr, ⟨rows, _, rfl⟩, hr⟩ | ⟨fr, ⟨rows, _, rfl⟩, hr⟩ <;>
    exact name_key_canonicalize hr

theorem find_exact_eq_filter (n05 p11 : List (List RawRow)) (name : List Char) :
    find_exact (buildStore n05 p11) name none =
      (buildStore n05 p11).df.filter (fun r => r.name_key == build_key name) := by
  show applyKindFilter none _ = _
  rw [applyKindFilter]
  exact ilocRows_lookup_mkNamesIndex _ _

-- Evaluation lemmas for the ingester on these shapes -------------------

theorem pointEntry_of_tag_ne {t : List Char} (a : List (List Char × List Char))
    (x : Option (List Char)) (cs : List XmlNode)
    (h : ¬(localname t = chars "Point")) :
    pointEntry (.elem t a x cs) = none := by
  simp only [pointEntry, XmlNode.tag]
  rw [if_neg h]

theorem busStopItem_of_tag_ne {t : List Char} (m : List (List Char × (Option ℚ × Option ℚ)))
    (a : List (List Char × List Char)) (x : Option (List Char)) (cs : List XmlNode)
    (h : ¬(localname t = chars "BusStop")) :
    busStopItem m (.elem t a x cs) = none := by
  simp only [busStopItem, XmlNode.tag]
  rw [if_neg h]

theorem pointEntry_p11Point (gid pos : List Char)
    (hg : gid.isEmpty = false) (hp : (stripWS pos).isEmpty = false) :
    pointEntry (p11Point gid pos) = some (gid, posToCoord (stripWS pos)) := by
  have hP : localname (chars "Point") = chars "Point" := by decide
  have hpos : (localname (chars "pos") == chars "pos") = true := by decide
  simp [pointEntry, p11Point, p11Pos, XmlNode.tag, XmlNode.attrs, XmlNode.children,
    XmlNode.text, attrGet, orFalsy, hg, hp, List.find?, hP, hpos]

theorem scanStopChildren_p11Stop (name gid : List Char)
    (hn : (stripWS name).isEmpty = false) :
    scanStopChildren [p11Bsn name, p11Loc gid] =
      (some (stripWS name), none, some gid) := by
  have h1 : localname (chars "bsn") = chars "bsn" := by decide
  have h2 : localname (chars "loc") = chars "loc" := by decide
  have h3 : ¬(chars "loc" = chars "bsn") := by decide
  have h4 : ¬(chars "loc" = chars "boc") := by decide
  have hn' : ¬(stripWS name = []) := by simpa using hn
  simp [scanStopChildren, p11Bsn, p11Loc, XmlNode.tag, XmlNode.text, XmlNode.attrs,
    h1, h2, h3, h4, hn', attrGet, orFalsy, XLINK_HREF]

theorem iter_p11Stop (name gid : List Char) :
    (p11Stop name gid).iter = [p11Stop name gid, p11Bsn name, p11Loc gid] := by
  simp [p11Stop, p11Bsn, p11Loc, XmlNode.iter, itersAll]

theorem iter_p11Point (gid pos : List Char) :
    (p11Point gid pos).iter = [p11Point gid pos, p11Pos pos] := by
  simp [p11Point, p11Pos, XmlNode.iter, itersAll]

theorem busStopItem_p11Stop (m : List (List Char × (Option ℚ × Option ℚ)))
    (name gid : List Char)
    (hg : gid.isEmpty = false) (hn : (stripWS name).isEmpty = false) :
    busStopItem m (p11Stop name gid) =
      some { sname := stripWS name,
             spref := any_contains_pref [stripWS name, []],
             slon := ((m.lookup gid).getD (none, none)).1,
             slat := ((m.lookup gid).getD (none, none)).2 } := by
  have htag : localname (chars "BusStop") = chars "BusStop" := by decide
  have hn' : ¬(stripWS name = []) := by simpa using hn
  simp only [busStopItem, p11Stop, XmlNode.tag, XmlNode.children, htag, if_pos rfl]
  rw [show (XmlNode.elem (chars "BusStop") [] none [p11Bsn name, p11Loc gid]) =
    p11Stop name gid from rfl]
  rw [scanStopChildren_p11Stop name gid hn, iter_p11Stop]
  have hnil : stripWS ([] : List Char) = [] := rfl
  simp [p11Stop, p11Bsn, p11Loc, XmlNode.text, hg, hn', Option.getD,
    List.filterMap_cons, hnil]

theorem iter_p11Doc2 (a b : XmlNode) :
    (p11Doc [a, b]).iter = p11Doc [a, b] :: (a.iter ++ b.iter) := by
  simp [p11Doc, XmlNode.iter, itersAll]

theorem iter_p11Doc1 (a : XmlNode) : (p11Doc [a]).iter = p11Doc [a] :: a.iter := by
  simp [p11Doc, XmlNode.iter, itersAll]

theorem iter_p11StopNoName (gid : List Char) :
    (p11StopNoName gid).iter = [p11StopNoName gid, p11Loc gid] := by
  simp [p11StopNoName, p11Loc, XmlNode.iter, itersAll]

theorem scanStopChildren_p11StopNoName (gid : List Char) :
    scanStopChildren [p11Loc gid] = (none, none, some gid) := by
  have h2 : localname (chars "loc") = chars "loc" := by decide
  have h3 : ¬(chars "loc" = chars "bsn") := by decide
  have h4 : ¬(chars "loc" = chars "boc") := by decide
  simp [scanStopChildren, p11Loc, XmlNode.tag, XmlNode.text, XmlNode.attrs,
    h2, h3, h4, attrGet, orFalsy, XLINK_HREF]

theorem busStopItem_p11StopNoName (m : List (List Char × (Option ℚ × Option ℚ)))
    (gid : List Char) : busStopItem m (p11StopNoName gid) = none := by
  have htag : localname (chars "BusStop") = chars "BusStop" := by decide
  simp only [busStopItem, p11StopNoName, XmlNode.tag, XmlNode.children, htag, if_pos rfl]
  rw [show ([p11Loc gid] : List XmlNode) =
    (XmlNode.elem (chars "BusStop") [] none [p11Loc gid]).children from rfl]
  rw [show (XmlNode.elem (chars "BusStop") [] none [p11Loc gid]) =
    p11StopNoName gid from rfl]
  rw [show (p11StopNoName gid).children = [p11Loc gid] from rfl,
    scanStopChildren_p11StopNoName gid]
  simp

-- ======================================================================
-- The claims
-- ======================================================================

/-- C1 (corrected): deduplication is per input frame, not per build.
Within one canonicalized frame the dedup keys `(kind, name_key, lat, lon)`
are pairwise distinct — `drop_duplicates` in `canonicalize` guarantees at
most one record per key for each source file.  The per-build form of the
claim is refuted by `C1_cross_file_counterexample`: `build` concatenates
the per-file frames without deduplicating across them. -/
theorem C1_dedup_per_frame (kind : List Char) (rows : List RawRow) :
    (canonicalize kind rows).Pairwise (fun a b => dedupKey a ≠ dedupKey b) :=
  pairwise_dropDuplicatesBy dedupKey _

/-- C1 counterexample: the same record arriving from two different source
files is stored twice — the built store does not contain exactly one row
for the shared dedup key. -/
theorem C1_cross_file_counterexample :
    decide (((buildStore [[⟨chars "1", chars "x", [], [], 35, 139⟩],
          [⟨chars "1", chars "x", [], [], 35, 139⟩]] []).df.countP
        (fun r => decide (dedupKey r =
          (chars "station", build_key (chars "x"), (35 : ℚ), (139 : ℚ))))) = 1) = false := by
  decide

/-- C2 (corrected): `build_key` is deterministic (it is a function), and it
is idempotent on every name whose derived key is stable under
`normalize_text` and does not itself end in one of the strip suffixes.
Unconditional idempotence is refuted by `C2_idempotence_counterexample`:
stripping one suffix can expose another. -/
theorem C2_build_key_idempotent_stable (n : List Char)
    (h1 : normalize_text (build_key n) = build_key n)
    (h2 : ∀ suf ∈ SUFFIXES_FOR_KEY, suf.isSuffixOf (build_key n) = false) :
    build_key (build_key n) = build_key n := by
  have hfind : SUFFIXES_FOR_KEY.find? (fun suf => suf.isSuffixOf (build_key n)) = none := by
    apply List.find?_eq_none.mpr
    intro suf hsuf
    simp [h2 suf hsuf]
  calc build_key (build_key n)
      = toLowerStr (stripKeySuffix (normalize_text (build_key n))) := rfl
    _ = toLowerStr (stripKeySuffix (build_key n)) := by rw [h1]
    _ = toLowerStr (build_key n) := by rw [stripKeySuffix, hfind]
    _ = build_key n := toLowerStr_toLowerStr _

/-- C2 witness: the hypotheses of `C2_build_key_idempotent_stable` hold at
the concrete name "tokyo", and re-keying its key is the identity there. -/
theorem C2_witness :
    normalize_text (build_key (chars "tokyo")) = build_key (chars "tokyo") ∧
    (∀ suf ∈ SUFFIXES_FOR_KEY, suf.isSuffixOf (build_key (chars "tokyo")) = false) ∧
    build_key (build_key (chars "tokyo")) = build_key (chars "tokyo") :=
  ⟨by decide, by decide,
    C2_build_key_idempotent_stable (chars "tokyo") (by decide) (by decide)⟩

/-- C2 counterexample: `build_key "駅駅" = "駅"` (one suffix stripped), but
re-keying strips again: `build_key "駅" = ""`, so
`build_key (build_key n) ≠ build_key n` at `n = "駅駅"`. -/
theorem C2_idempotence_counterexample :
    decide (build_key (build_key (chars "駅駅")) = build_key (chars "駅駅")) = false := by
  decide

/-- C3 (confirmed): on every built store, `find_exact` with no kind filter
returns exactly the stored records whose `name_key` equals the normalized
key of the query — the result list is the filter of the store on that key
(so no matching record is omitted and no other record is included). -/
theorem C3_find_exact_exact_set (n05 p11 : List (List RawRow)) (name : List Char) :
    find_exact (buildStore n05 p11) name none =
      (buildStore n05 p11).df.filter (fun r => r.name_key == build_key name) :=
  find_exact_eq_filter n05 p11 name

/-- C4 (corrected): `find_substring` subsumes `find_exact` only for query
terms whose normalized form ends in none of the key suffixes (and contains
no regex metacharacter, since the pattern is handed to a regex engine).
For such queries every exact hit is a substring hit.  For a suffixed query
the exact key is the suffix-stripped form while the substring needle keeps
the suffix, and the inclusion fails — see `C4_suffix_counterexample`. -/
theorem C4_substring_superset_of_exact (n05 p11 : List (List RawRow)) (query : List Char)
    (hsuf : ∀ suf ∈ SUFFIXES_FOR_KEY, suf.isSuffixOf (normalize_text query) = false)
    (hmeta : ∀ c ∈ toLowerStr (normalize_text query), REGEX_META.contains c = false) :
    ∀ r ∈ find_exact (buildStore n05 p11) query none,
      r ∈ find_substring (buildStore n05 p11) query none := by
  have hm := hmeta
  intro r hr
  have hfind : SUFFIXES_FOR_KEY.find?
      (fun suf => suf.isSuffixOf (normalize_text query)) = none := by
    apply List.find?_eq_none.mpr
    intro suf hs
    simp [hsuf suf hs]
  have hkey : build_key query = toLowerStr (normalize_text query) := by
    rw [build_key, stripKeySuffix, hfind]
  rw [find_exact_eq_filter] at hr
  have hmem := List.mem_of_mem_filter hr
  have hkeq : r.name_key = build_key query :=
    beq_iff_eq.mp (List.mem_filter.mp hr).2
  show r ∈ applyKindFilter none _
  rw [applyKindFilter]
  apply List.mem_filter.mpr
  refine ⟨hmem, ?_⟩
  have hnk : build_key r.name = r.name_key := (name_key_buildStore hmem).symm
  rw [hnk, hkeq, hkey]
  exact containsSub_self _

/-- C4 witness: for the suffix-free, metacharacter-free query "tokyo" on a
one-record store, every exact hit is a substring hit. -/
theorem C4_witness :
    (∀ suf ∈ SUFFIXES_FOR_KEY, suf.isSuffixOf (normalize_text (chars "tokyo")) = false) ∧
    (∀ c ∈ toLowerStr (normalize_text (chars "tokyo")), REGEX_META.contains c = false) ∧
    ∀ r ∈ find_exact (buildStore [[⟨chars "1", chars "tokyo", [], [], 35, 139⟩]] [])
        (chars "tokyo") none,
      r ∈ find_substring (buildStore [[⟨chars "1", chars "tokyo", [], [], 35, 139⟩]] [])
        (chars "tokyo") none :=
  ⟨by decide, by decide,
    C4_substring_superset_of_exact [[⟨chars "1", chars "tokyo", [], [], 35, 139⟩]] []
      (chars "tokyo") (by decide) (by decide)⟩

/-- C4 counterexample: for the query "x駅" against the store built from the
single record named "x駅" (whose key is "x"), `find_exact` returns the
record but `find_substring` does not, because the substring needle "x駅"
keeps the suffix that the stored key has stripped. -/
theorem C4_suffix_counterexample :
    decide (∀ r ∈ find_exact (buildStore [[⟨chars "1", chars "x駅", [], [], 35, 139⟩]] [])
        (chars "x駅") none,
      r ∈ find_substring (buildStore [[⟨chars "1", chars "x駅", [], [], 35, 139⟩]] [])
        (chars "x駅") none) = false := by
  decide

/-- C5 (confirmed): the ingester resolves a feature's coordinates through
`id2coord` which is built from every `Point` in the document before any
`BusStop` is scanned, so the result is the same whether the `Point` is
declared before or after the `BusStop` referencing it; in particular a
point declared after the referencing feature still yields a record whose
(lon, lat) are the parsed coordinates of the point (at the witness's
inputs, lat 35.0 and lon 139.0). -/
theorem C5_geometry_link_order_independent (gid name pos : List Char)
    (hg : gid.isEmpty = false) (hn : (stripWS name).isEmpty = false)
    (hp : (stripWS pos).isEmpty = false) :
    ingest_p11 (p11Doc [p11Stop name gid, p11Point gid pos]) =
      ingest_p11 (p11Doc [p11Point gid pos, p11Stop name gid]) ∧
    ingest_p11 (p11Doc [p11Stop name gid, p11Point gid pos]) =
      [{ sname := stripWS name, spref := any_contains_pref [stripWS name, []],
         slon := (posToCoord (stripWS pos)).1, slat := (posToCoord (stripWS pos)).2 }] := by
  have peDoc : ∀ cs, pointEntry (p11Doc cs) = none :=
    fun cs => pointEntry_of_tag_ne _ _ _ (by decide)
  have peStop : pointEntry (p11Stop name gid) = none :=
    pointEntry_of_tag_ne _ _ _ (by decide)
  have peBsn : pointEntry (p11Bsn name) = none :=
    pointEntry_of_tag_ne _ _ _ (by decide)
  have peLoc : pointEntry (p11Loc gid) = none :=
    pointEntry_of_tag_ne _ _ _ (by decide)
  have pePos : pointEntry (p11Pos pos) = none :=
    pointEntry_of_tag_ne _ _ _ (by decide)
  have pePt := pointEntry_p11Point gid pos hg hp
  have bsDoc : ∀ cs, (∀ m, busStopItem m (p11Doc cs) = none) :=
    fun cs m => busStopItem_of_tag_ne _ _ _ _ (by decide)
  have bsBsn : ∀ m, busStopItem m (p11Bsn name) = none :=
    fun m => busStopItem_of_tag_ne _ _ _ _ (by decide)
  have bsLoc : ∀ m, busStopItem m (p11Loc gid) = none :=
    fun m => busStopItem_of_tag_ne _ _ _ _ (by decide)
  have bsPos : ∀ m, busStopItem m (p11Pos pos) = none :=
    fun m => busStopItem_of_tag_ne _ _ _ _ (by decide)
  have bsPt : ∀ m, busStopItem m (p11Point gid pos) = none :=
    fun m => busStopItem_of_tag_ne _ _ _ _ (by decide)
  have bsStop := fun m => busStopItem_p11Stop m name gid hg hn
  have hlook : (([(gid, posToCoord (stripWS pos))] :
      List (List Char × (Option ℚ × Option ℚ))).lookup gid) =
      some (posToCoord (stripWS pos)) := by
    simp [List.lookup_cons]
  have compute1 : ingest_p11 (p11Doc [p11Stop name gid, p11Point gid pos]) =
      [{ sname := stripWS name, spref := any_contains_pref [stripWS name, []],
         slon := (posToCoord (stripWS pos)).1, slat := (posToCoord (stripWS pos)).2 }] := by
    simp only [ingest_p11, iter_p11Doc2, iter_p11Stop, iter_p11Point, List.cons_append,
      List.nil_append, collectPoints, List.foldl_cons, List.foldl_nil,
      peDoc, peStop, peBsn, peLoc, pePt, pePos, dictInsert, List.any_nil,
      Bool.false_eq_true, if_false, List.nil_append,
      List.filterMap_cons, List.filterMap_nil,
      bsDoc, bsStop, bsBsn, bsLoc, bsPt, bsPos, hlook, Option.getD_some]
  have compute2 : ingest_p11 (p11Doc [p11Point gid pos, p11Stop name gid]) =
      [{ sname := stripWS name, spref := any_contains_pref [stripWS name, []],
         slon := (posToCoord (stripWS pos)).1, slat := (posToCoord (stripWS pos)).2 }] := by
    simp only [ingest_p11, iter_p11Doc2, iter_p11Stop, iter_p11Point, List.cons_append,
      List.nil_append, collectPoints, List.foldl_cons, List.foldl_nil,
      peDoc, peStop, peBsn, peLoc, pePt, pePos, dictInsert, List.any_nil,
      Bool.false_eq_true, if_false, List.nil_append,
      List.filterMap_cons, List.filterMap_nil,
      bsDoc, bsStop, bsBsn, bsLoc, bsPt, bsPos, hlook, Option.getD_some]
  exact ⟨compute1.trans compute2.symm, compute1⟩

/-- C5 witness: at identifier "n1", name "x" and position text
"35.0 139.0", both declaration orders give the same single record, and its
coordinates evaluate to lat 35 and lon 139. -/
theorem C5_witness :
    (chars "n1").isEmpty = false ∧
    (stripWS (chars "x")).isEmpty = false ∧
    (stripWS (chars "35.0 139.0")).isEmpty = false ∧
    (ingest_p11 (p11Doc [p11Stop (chars "x") (chars "n1"),
        p11Point (chars "n1") (chars "35.0 139.0")]) =
      ingest_p11 (p11Doc [p11Point (chars "n1") (chars "35.0 139.0"),
        p11Stop (chars "x") (chars "n1")]) ∧
     ingest_p11 (p11Doc [p11Stop (chars "x") (chars "n1"),
        p11Point (chars "n1") (chars "35.0 139.0")]) =
      [{ sname := stripWS (chars "x"),
         spref := any_contains_pref [stripWS (chars "x"), []],
         slon := (posToCoord (stripWS (chars "35.0 139.0"))).1,
         slat := (posToCoord (stripWS (chars "35.0 139.0"))).2 }]) ∧
    ingest_p11 (p11Doc [p11Stop (chars "x") (chars "n1"),
        p11Point (chars "n1") (chars "35.0 139.0")]) =
      [{ sname := chars "x", spref := [], slon := some 139, slat := some 35 }] :=
  ⟨by decide, by decide, by decide,
   C5_geometry_link_order_independent (chars "n1") (chars "x") (chars "35.0 139.0")
     (by decide) (by decide) (by decide),
   by decide⟩

/-- C6 (corrected): every record returned by `find_fuzzy` is reached via an
index key whose score against the normalized query is at least 70, but
`limit` bounds the number of extracted keys, not the number of returned
records: a single matching key with several records already exceeds it
(see `C6_limit_counterexample`).  The theorem is generic in the similarity
scorer. -/
theorem C6_fuzzy_threshold_and_key_limit (scorer : List Char → List Char → ℚ)
    (n05 p11 : List (List RawRow)) (query : List Char) (limit : Nat) :
    (fuzzyKeys scorer (buildStore n05 p11) query limit).length ≤ limit ∧
    ∀ r ∈ find_fuzzy scorer (buildStore n05 p11) query limit none,
      ∃ k ∈ fuzzyKeys scorer (buildStore n05 p11) query limit,
        70 ≤ scorer (build_key query) k ∧ r.name_key = k := by
  constructor
  · rw [fuzzyKeys, List.length_map]
    refine le_trans (List.length_filter_le _ _) ?_
    rw [processExtract, List.length_take]
    exact min_le_left _ _
  · intro r hr
    have hr2 : r ∈ ilocRows (buildStore n05 p11).df
        ((fuzzyKeys scorer (buildStore n05 p11) query limit).flatMap
          (fun k => lookupIdx (buildStore n05 p11).names_index k)) := by
      simpa [find_fuzzy, applyKindFilter] using hr
    rcases List.mem_filterMap.mp hr2 with ⟨i, hi, hgi⟩
    rcases List.mem_flatMap.mp hi with ⟨k, hk, hik⟩
    refine ⟨k, hk, ?_, ?_⟩
    · rcases List.mem_map.mp hk with ⟨p, hp, rfl⟩
      have hp70 : decide (70 ≤ p.2) = true := (List.mem_filter.mp hp).2
      have hpe : p ∈ processExtract scorer (build_key query)
          (indexKeys (buildStore n05 p11)) limit := (List.mem_filter.mp hp).1
      have hpm : p ∈ (indexKeys (buildStore n05 p11)).map
          (fun c => (c, scorer (build_key query) c)) :=
        (List.perm_insertionSort _ _).mem_iff.mp (List.mem_of_mem_take hpe)
      rcases List.mem_map.mp hpm with ⟨c, _, rfl⟩
      exact of_decide_eq_true hp70
    · have hrk : r ∈ ilocRows (buildStore n05 p11).df
          (lookupIdx (buildStore n05 p11).names_index k) :=
        List.mem_filterMap.mpr ⟨i, hik, hgi⟩
      have := ilocRows_lookup_mkNamesIndex (buildStore n05 p11).df k
      rw [show (buildStore n05 p11).names_index =
          mkNamesIndex ((buildStore n05 p11).df.map Row.name_key) from rfl, this] at hrk
      exact beq_iff_eq.mp (List.mem_filter.mp hrk).2

/-- C6 counterexample: with `limit = 1` and two stored records sharing the
key "xx", a fuzzy query for "xx" returns both records — the result count
exceeds `limit`.  The inlined scorer behaves as `fuzz.WRatio` does on these
inputs (identical strings score 100). -/
theorem C6_limit_counterexample :
    decide ((find_fuzzy (fun a b => if a = b then (100 : ℚ) else 0)
        (buildStore [[⟨chars "1", chars "xx", [], [], 35, 139⟩,
                      ⟨chars "2", chars "xx", [], [], 36, 140⟩]] [])
        (chars "xx") 1 none).length ≤ 1) = false := by
  decide

/-- C7 (confirmed): `nearest` returns at most `k` records, in non-decreasing
order of the approximate distance — the planar coordinate distance (the
square root of `sqDist`) scaled by the fixed constant 111 000 metres per
degree. -/
theorem C7_nearest_bounded_sorted (st : Store) (lat lon : ℚ) (k : Nat) :
    (nearest st lat lon k none).length ≤ k ∧
    List.Sorted (fun a b => a ≤ b)
      ((nearest st lat lon k none).map
        (fun r => (111000 : ℝ) * Real.sqrt ((sqDist r.lat r.lon lat lon : ℚ) : ℝ))) := by
  have hres : nearest st lat lon k none =
      (((st.df.map (fun r => (r, sqDist r.lat r.lon lat lon))).insertionSort
        (fun a b => a.2 ≤ b.2)).take k).map Prod.fst := by
    simp only [nearest, applyKindFilter]
  constructor
  · rw [hres, List.length_map, List.length_take]
    exact min_le_left _ _
  · haveI : IsTotal (Row × ℚ) (fun a b => a.2 ≤ b.2) := ⟨fun a b => le_total a.2 b.2⟩
    haveI : IsTrans (Row × ℚ) (fun a b => a.2 ≤ b.2) :=
      ⟨fun _ _ _ hab hbc => le_trans hab hbc⟩
    have hsorted := List.sorted_insertionSort (α := Row × ℚ) (fun a b => a.2 ≤ b.2)
      (st.df.map (fun r => (r, sqDist r.lat r.lon lat lon)))
    have htake := hsorted.sublist (List.take_sublist k _)
    rw [hres, List.Sorted, List.pairwise_map, List.pairwise_map]
    refine htake.imp_of_mem ?_
    intro p q hp hq hpq
    have hmemp : p ∈ st.df.map (fun r => (r, sqDist r.lat r.lon lat lon)) :=
      (List.perm_insertionSort _ _).mem_iff.mp (List.mem_of_mem_take hp)
    have hmemq : q ∈ st.df.map (fun r => (r, sqDist r.lat r.lon lat lon)) :=
      (List.perm_insertionSort _ _).mem_iff.mp (List.mem_of_mem_take hq)
    rcases List.mem_map.mp hmemp with ⟨rp, _, rfl⟩
    rcases List.mem_map.mp hmemq with ⟨rq, _, rfl⟩
    have hcast : ((sqDist rp.lat rp.lon lat lon : ℚ) : ℝ) ≤
        ((sqDist rq.lat rq.lon lat lon : ℚ) : ℝ) := by exact_mod_cast hpq
    exact mul_le_mul_of_nonneg_left (Real.sqrt_le_sqrt hcast) (by norm_num)

/-- C8 (confirmed): with the similarity backend missing, a fuzzy query
returns the distinct rapidfuzz backend-unavailable error and nothing else
(in particular no substring-mode results); with the spatial backend
missing, a nearest query returns the distinct scipy backend-unavailable
error; with the backend present each query succeeds with its ordinary
result, and the two errors are distinct values. -/
theorem C8_backend_unavailable_surfaces (st : Store)
    (scorer : List Char → List Char → ℚ) (query : List Char)
    (limit : Nat) (kind : Option (List Char)) (lat lon : ℚ) (k : Nat) :
    find_fuzzy_checked false scorer st query limit kind = .error rapidfuzzError ∧
    find_fuzzy_checked true scorer st query limit kind =
      .ok (find_fuzzy scorer st query limit kind) ∧
    nearest_checked false st lat lon k kind = .error scipyError ∧
    nearest_checked true st lat lon k kind = .ok (nearest st lat lon k kind) ∧
    (rapidfuzzError == scipyError) = false :=
  ⟨rfl, rfl, rfl, rfl, by decide⟩

/-- C9 (corrected): `collect_inputs` fails with the missing-input error
exactly when the specifier contains no glob metacharacter and names
neither an existing file nor an existing directory.  A glob pattern that
matches nothing is NOT such a specifier: it returns an empty resource list
(see `C9_empty_glob_counterexample`), so the claim's glob case fails. -/
theorem C9_missing_input_iff (fs : FileSys) (spec : List Char) :
    collect_inputs fs spec = .error (.missingInput (chars "指定パスが見つかりません")) ↔
      (hasGlobChar spec = false ∧ fs.isFile spec = false ∧ fs.isDir spec = false) := by
  unfold collect_inputs
  split_ifs with h1 h2 h3 h4 h5 <;> simp_all

/-- C9 counterexample: on a filesystem where the pattern "*.gml" matches
nothing, `collect_inputs` returns the empty resource list instead of
failing with the missing-input error. -/
theorem C9_empty_glob_counterexample :
    collect_inputs ⟨fun _ => false, fun _ => false, fun _ => [], fun _ => [], fun _ => []⟩
      (chars "*.gml") = .ok [] := by
  rfl

/-- C10 (confirmed): a `BusStop` with no non-empty `bsn` child produces no
record at all, even when its geometry reference resolves (here a matching
`Point` is present); a named `BusStop` whose reference does not resolve
(no `Point` in the document) is kept with both coordinates `None`. -/
theorem C10_unnamed_dropped_named_kept (gid name pos : List Char)
    (hg : gid.isEmpty = false) (hp : (stripWS pos).isEmpty = false)
    (hn : (stripWS name).isEmpty = false) :
    ingest_p11 (p11Doc [p11StopNoName gid, p11Point gid pos]) = [] ∧
    ingest_p11 (p11Doc [p11Stop name gid]) =
      [{ sname := stripWS name, spref := any_contains_pref [stripWS name, []],
         slon := none, slat := none }] := by
  have peDoc : ∀ cs, pointEntry (p11Doc cs) = none :=
    fun cs => pointEntry_of_tag_ne _ _ _ (by decide)
  have peStopN : pointEntry (p11StopNoName gid) = none :=
    pointEntry_of_tag_ne _ _ _ (by decide)
  have peStop : pointEntry (p11Stop name gid) = none :=
    pointEntry_of_tag_ne _ _ _ (by decide)
  have peBsn : pointEntry (p11Bsn name) = none :=
    pointEntry_of_tag_ne _ _ _ (by decide)
  have peLoc : pointEntry (p11Loc gid) = none :=
    pointEntry_of_tag_ne _ _ _ (by decide)
  have pePos : pointEntry (p11Pos pos) = none :=
    pointEntry_of_tag_ne _ _ _ (by decide)
  have pePt := pointEntry_p11Point gid pos hg hp
  have bsDoc : ∀ cs, (∀ m, busStopItem m (p11Doc cs) = none) :=
    fun cs m => busStopItem_of_tag_ne _ _ _ _ (by decide)
  have bsBsn : ∀ m, busStopItem m (p11Bsn name) = none :=
    fun m => busStopItem_of_tag_ne _ _ _ _ (by decide)
  have bsLoc : ∀ m, busStopItem m (p11Loc gid) = none :=
    fun m => busStopItem_of_tag_ne _ _ _ _ (by decide)
  have bsPos : ∀ m, busStopItem m (p11Pos pos) = none :=
    fun m => busStopItem_of_tag_ne _ _ _ _ (by decide)
  have bsPt : ∀ m, busStopItem m (p11Point gid pos) = none :=
    fun m => busStopItem_of_tag_ne _ _ _ _ (by decide)
  have bsStopN := fun m => busStopItem_p11StopNoName m gid
  have bsStop := fun m => busStopItem_p11Stop m name gid hg hn
  constructor
  · simp only [ingest_p11, iter_p11Doc2, iter_p11StopNoName, iter_p11Point,
      List.cons_append, List.nil_append, collectPoints, List.foldl_cons, List.foldl_nil,
      peDoc, peStopN, peLoc, pePt, pePos, dictInsert, List.any_nil,
      Bool.false_eq_true, if_false,
      List.filterMap_cons, List.filterMap_nil,
      bsDoc, bsStopN, bsLoc, bsPt, bsPos]
  · simp only [ingest_p11, iter_p11Doc1, iter_p11Stop,
      List.cons_append, List.nil_append, collectPoints, List.foldl_cons, List.foldl_nil,
      peDoc, peStop, peBsn, peLoc,
      List.filterMap_cons, List.filterMap_nil,
      bsDoc, bsStop, bsBsn, bsLoc, List.lookup_nil, Option.getD_none]

/-- C10 witness: at identifier "n1" and position "35.0 139.0", the nameless
feature with a resolvable reference yields no record, while the feature
named "x" with a dangling reference yields one record with null
coordinates. -/
theorem C10_witness :
    (chars "n1").isEmpty = false ∧
    (stripWS (chars "35.0 139.0")).isEmpty = false ∧
    (stripWS (chars "x")).isEmpty = false ∧
    (ingest_p11 (p11Doc [p11StopNoName (chars "n1"),
        p11Point (chars "n1") (chars "35.0 139.0")]) = [] ∧
     ingest_p11 (p11Doc [p11Stop (chars "x") (chars "n1")]) =
      [{ sname := stripWS (chars "x"),
         spref := any_contains_pref [stripWS (chars "x"), []],
         slon := none, slat := none }]) :=
  ⟨by decide, by decide, by decide,
   C10_unnamed_dropped_named_kept (chars "n1") (chars "x") (chars "35.0 139.0")
     (by decide) (by decide) (by decide)⟩
